import Mathlib

/-!
# Verification of the cloudinary transformation URL model

Shallow embedding of `src/transformation/` (aspect_ratio.rs, gravity.rs,
background.rs, resize_mode.rs, crop_mode.rs, pad_mode.rs, mod.rs).

Strings are modelled as `List Char` (`Str`). Rust's `str` length is a byte
count; every string occurring in the claims is ASCII, where byte count and
character count agree, so `List.length` models `str::len`. Percent-encoding
performed by the external `url` crate is the identity on the character sets
the claims quantify over (RFC 3986 unreserved characters), so `Url::set_path`
is modelled as storing the path verbatim.
-/

namespace Cloudinary

/-- Strings of the model: Rust `str` as a list of characters. -/
abbrev Str := List Char

/-- Decimal rendering of a natural number, as in Rust's `Display for u32`. -/
def natStr (n : Nat) : Str := Nat.toDigits 10 n

/-- Two-digit lowercase hex as in Rust's `{:02x?}` on a `u8` (values < 256). -/
def hex2 (n : Nat) : Str :=
  let d := Nat.toDigits 16 (n % 256)
  if d.length = 1 then '0' :: d else d

/-- `o.map f` collapsed to a string, `[]` when absent: models
`opt.as_ref().map(|x| format!(..)).unwrap_or("".into())`. -/
def optStr {α : Type} (o : Option α) (f : α → Str) : Str :=
  match o with
  | some x => f x
  | none => []

/-- `o` as a zero- or one-element token list (used to state ordering claims). -/
def optTok {α : Type} (o : Option α) (f : α → Str) : List Str :=
  match o with
  | some x => [f x]
  | none => []

/-- Split a character list at every occurrence of `c`; mirrors Rust
`str::split(c)` (never returns an empty list; `"".split(c) == [""]`). -/
def splitChar (c : Char) : Str → List Str
  | [] => [[]]
  | x :: xs =>
    match splitChar c xs with
    | [] => [[]]
    | h :: t => if x = c then [] :: h :: t else (x :: h) :: t

/-- Join with a single-character separator; mirrors `Vec::join`. -/
def joinChar (c : Char) : List Str → Str
  | [] => []
  | [x] => x
  | x :: y :: t => x ++ c :: joinChar c (y :: t)

/-- Rust `str::split_once(c)`: split at the first occurrence of `c`. -/
def splitOnce (c : Char) : Str → Option (Str × Str)
  | [] => none
  | x :: xs =>
    if x = c then some ([], xs)
    else (splitOnce c xs).map (fun p => (x :: p.1, p.2))

/-- Rust `str::rsplit_once(c)`: split at the last occurrence of `c`. -/
def rsplitOnce (c : Char) : Str → Option (Str × Str)
  | [] => none
  | x :: xs =>
    match rsplitOnce c xs with
    | some (h, t) => some (x :: h, t)
    | none => if x = c then some ([], xs) else none

/-- Core loop of Rust `str::replace` for a non-empty pattern: replace every
leftmost non-overlapping occurrence of `pat` by `repl`. The `fuel` argument
makes the recursion structural; each step consumes at least one character, so
`fuel = s.length` always suffices (only reached with `pat ≠ []`). -/
def replaceGo (pat repl : Str) : Nat → Str → Str
  | _, [] => []
  | 0, s => s
  | fuel + 1, x :: xs =>
    if pat.isPrefixOf (x :: xs) then
      repl ++ replaceGo pat repl fuel ((x :: xs).drop pat.length)
    else
      x :: replaceGo pat repl fuel xs

/-- Rust `str::replace(pat, repl)`: for an empty pattern the replacement is
inserted at every character boundary, otherwise `replaceGo`. -/
def replaceAll (pat repl s : Str) : Str :=
  if pat = [] then repl ++ (s.map (fun ch => ch :: repl)).flatten
  else replaceGo pat repl s.length s

/-! ## Primitive value types (aspect_ratio.rs, gravity.rs, background.rs) -/

/-- `AspectRatio` from aspect_ratio.rs. `Result` carries an `f32`. -/
inductive AspectRatio : Type
  | Ignore : AspectRatio
  | Sides (width height : Nat) : AspectRatio
  | Result (result : Float) : AspectRatio

/-- `impl Display for AspectRatio` from aspect_ratio.rs. -/
def AspectRatio.display : AspectRatio → Str
  | .Sides width height => "ar_".data ++ natStr width ++ ':' :: natStr height
  | .Result result => "ar_".data ++ (toString result).data
  | .Ignore => "fl_ignore_aspect_ratio".data

/-- `Gravity` from gravity.rs. -/
inductive Gravity : Type
  | NorthEast | North | NorthWest | West | SouthWest | South | SouthEast
  | East | Center | AdvEyes | AdvFace | AdvFaces | Custom | CustomFace
  | CustomAdvFace | CustomAdvFaces | CustomFaces | Face | FaceCenter
  | FaceAuto | Faces | FacesCenter | FacesAuto | OcrText | AutoSubject
  | AutoClassic

/-- `impl Display for Gravity` from gravity.rs. -/
def Gravity.display : Gravity → Str
  | .NorthEast => "g_north_east".data
  | .North => "g_north".data
  | .NorthWest => "g_north_west".data
  | .West => "g_west".data
  | .SouthWest => "g_south_west".data
  | .South => "g_south".data
  | .SouthEast => "g_south_east".data
  | .East => "g_east".data
  | .Center => "g_center".data
  | .AdvEyes => "g_adv_eyes".data
  | .AdvFace => "g_adv_face".data
  | .AdvFaces => "g_adv_faces".data
  | .Custom => "g_custom".data
  | .CustomFace => "g_custom:face".data
  | .CustomAdvFace => "g_custom:adv_face".data
  | .CustomAdvFaces => "g_custom:adv_faces".data
  | .CustomFaces => "g_custom:faces".data
  | .Face => "g_face".data
  | .FaceCenter => "g_face:center".data
  | .FaceAuto => "g_face:auto".data
  | .Faces => "g_faces".data
  | .FacesCenter => "g_faces:center".data
  | .FacesAuto => "g_faces:auto".data
  | .OcrText => "g_ocr_text".data
  | .AutoSubject => "g_auto:subject".data
  | .AutoClassic => "g_auto:classic".data

/-- Modelled from the spec: the repository declares `pub mod named_color`
(mod.rs line 5) but named_color.rs is not under src/. Per the spec the named
colors form "a large closed palette of ~150+ standard names", "a fixed mapping
from name-token to canonical lowercase string"; only the names that the claims
and the in-repo tests exercise are modelled here, each rendering as its
lowercase name. -/
inductive NamedColor : Type
  | Black | White | Brown | BurlyWood | Azure | SkyBlue
  | MediumTurquoise | MediumPurple

/-- Modelled from the spec: lowercase-name token of a named color. -/
def NamedColor.display : NamedColor → Str
  | .Black => "black".data
  | .White => "white".data
  | .Brown => "brown".data
  | .BurlyWood => "burlywood".data
  | .Azure => "azure".data
  | .SkyBlue => "skyblue".data
  | .MediumTurquoise => "mediumturquoise".data
  | .MediumPurple => "mediumpurple".data

/-- `AutoModes` from background.rs. -/
inductive AutoModes : Type
  | Border | Predominant | BorderContrast | PredominantContrast
  | PredominantGradient | PredominantGradientContrast
  | BorderGradient | BorderGradientContrast

/-- `impl Display for AutoModes` from background.rs. -/
def AutoModes.display : AutoModes → Str
  | .Border => "border".data
  | .Predominant => "predominant".data
  | .BorderContrast => "border_contrast".data
  | .PredominantContrast => "predominant_contrast".data
  | .PredominantGradient => "predominant_gradient".data
  | .PredominantGradientContrast => "predominant_gradient_contrast".data
  | .BorderGradient => "border_gradient".data
  | .BorderGradientContrast => "border_gradient_contrast".data

/-- `Number` from background.rs. -/
inductive Number : Type
  | Two | Four

/-- `impl Display for Number` from background.rs. -/
def Number.display : Number → Str
  | .Two => "2".data
  | .Four => "4".data

/-- `Direction` from background.rs. -/
inductive Direction : Type
  | Horizontal | Vertical | DiagonalDesc | DiagonalAsc

/-- `impl Display for Direction` from background.rs. -/
def Direction.display : Direction → Str
  | .Horizontal => "horizontal".data
  | .Vertical => "vertical".data
  | .DiagonalDesc => "diagonal_desc".data
  | .DiagonalAsc => "diagonal_asc".data

/-- `Color` from background.rs; the `RGB`/`RGBA` channels are `u8`. -/
inductive Color : Type
  | Named (color : NamedColor)
  | RGB (r g b : Nat)
  | RGBA (r g b a : Nat)

/-- `impl Display for Color` from background.rs (`rgb:` + `{:02x?}` bytes). -/
def Color.display : Color → Str
  | .Named color => NamedColor.display color
  | .RGB r g b => "rgb:".data ++ hex2 r ++ hex2 g ++ hex2 b
  | .RGBA r g b a => "rgb:".data ++ hex2 r ++ hex2 g ++ hex2 b ++ hex2 a

/-- `Auto` from background.rs. -/
structure Auto : Type where
  mode : Option AutoModes
  number : Option Number
  direction : Option Direction
  palette : Option (List Color)

/-- `impl Display for Auto` from background.rs: `"auto"` then each present
sub-field, colon-joined; the palette as `palette_` + `_`-joined colors. -/
def Auto.display (a : Auto) : Str :=
  let params : List Str :=
    ["auto".data]
      ++ optTok a.mode AutoModes.display
      ++ optTok a.number Number.display
      ++ optTok a.direction Direction.display
      ++ optTok a.palette
          (fun palette => "palette_".data ++ joinChar '_' (palette.map Color.display))
  joinChar ':' params

/-- `Background` from background.rs. -/
inductive Background : Type
  | Color (color : Color)
  | Auto (auto : Auto)

/-- `impl Display for Background` from background.rs. -/
def Background.display : Background → Str
  | .Color color => "b_".data ++ Color.display color
  | .Auto auto => "b_".data ++ Auto.display auto

/-! ## Transformation variants (resize_mode.rs, crop_mode.rs, pad_mode.rs) -/

/-- `ResizeMode` from resize_mode.rs; widths and heights are `u32`,
`liquid: Option<()>`. -/
inductive ResizeMode : Type
  | ScaleByWidth (width : Nat) (ar : Option AspectRatio) (liquid : Option Unit)
  | ScaleByHeight (height : Nat) (ar : Option AspectRatio) (liquid : Option Unit)
  | Scale (width height : Nat) (liquid : Option Unit)

/-- `impl Display for ResizeMode` from resize_mode.rs, translating each
`format!` string as literal concatenation. -/
def ResizeMode.display : ResizeMode → Str
  | .ScaleByWidth width ar liquid =>
      optStr ar (fun a => AspectRatio.display a ++ [','])
        ++ "c_scale,w_".data ++ natStr width
        ++ optStr liquid (fun _ => ",g_liquid".data)
  | .ScaleByHeight height ar liquid =>
      optStr ar (fun a => AspectRatio.display a ++ [','])
        ++ "c_scale,h_".data ++ natStr height
        ++ optStr liquid (fun _ => ",g_liquid".data)
  | .Scale width height liquid =>
      "c_scale,w_".data ++ natStr width ++ ",h_".data ++ natStr height
        ++ optStr liquid (fun _ => ",g_liquid".data)

/-- `CropMode` from crop_mode.rs. -/
inductive CropMode : Type
  | FillByWidth (width : Nat) (ar : Option AspectRatio) (gravity : Option Gravity)
  | FillByHeight (height : Nat) (ar : Option AspectRatio) (gravity : Option Gravity)
  | Fill (width height : Nat) (gravity : Option Gravity)

/-- `impl Display for CropMode` from crop_mode.rs: `"{}c_fill{},w_{}"` with the
aspect-ratio part ending in `,` and the gravity part starting with `,`. -/
def CropMode.display : CropMode → Str
  | .FillByWidth width ar gravity =>
      optStr ar (fun a => AspectRatio.display a ++ [','])
        ++ "c_fill".data ++ optStr gravity (fun g => ',' :: Gravity.display g)
        ++ ",w_".data ++ natStr width
  | .FillByHeight height ar gravity =>
      optStr ar (fun a => AspectRatio.display a ++ [','])
        ++ "c_fill".data ++ optStr gravity (fun g => ',' :: Gravity.display g)
        ++ ",h_".data ++ natStr height
  | .Fill width height gravity =>
      "c_fill".data ++ optStr gravity (fun g => ',' :: Gravity.display g)
        ++ ",w_".data ++ natStr width ++ ",h_".data ++ natStr height

/-- `PadMode` from pad_mode.rs. -/
inductive PadMode : Type
  | PadByWidth (width : Nat) (ar : Option AspectRatio)
      (background : Option Background) (gravity : Option Gravity)
  | PadByHeight (height : Nat) (ar : Option AspectRatio)
      (background : Option Background) (gravity : Option Gravity)
  | Pad (width height : Nat)
      (background : Option Background) (gravity : Option Gravity)

/-- `impl Display for PadMode` from pad_mode.rs: `"{}{}c_pad{},w_{}"` with the
background and aspect-ratio parts ending in `,`, the gravity part starting
with `,`. -/
def PadMode.display : PadMode → Str
  | .PadByWidth width ar background gravity =>
      optStr background (fun b => Background.display b ++ [','])
        ++ optStr ar (fun a => AspectRatio.display a ++ [','])
        ++ "c_pad".data ++ optStr gravity (fun g => ',' :: Gravity.display g)
        ++ ",w_".data ++ natStr width
  | .PadByHeight height ar background gravity =>
      optStr background (fun b => Background.display b ++ [','])
        ++ optStr ar (fun a => AspectRatio.display a ++ [','])
        ++ "c_pad".data ++ optStr gravity (fun g => ',' :: Gravity.display g)
        ++ ",h_".data ++ natStr height
  | .Pad width height background gravity =>
      optStr background (fun b => Background.display b ++ [','])
        ++ "c_pad".data ++ optStr gravity (fun g => ',' :: Gravity.display g)
        ++ ",w_".data ++ natStr width ++ ",h_".data ++ natStr height

/-- `Transformations` from transformation/mod.rs. -/
inductive Transformations : Type
  | Resize (resize_mode : ResizeMode)
  | Crop (crop_mode : CropMode)
  | Pad (pad_mode : PadMode)

/-- `impl Display for Transformations` from transformation/mod.rs. -/
def Transformations.display : Transformations → Str
  | .Resize resize_mode => ResizeMode.display resize_mode
  | .Crop crop_mode => CropMode.display crop_mode
  | .Pad pad_mode => PadMode.display pad_mode

/-! ## The image identity, URL building and URL parsing (mod.rs) -/

/-- `Image` from transformation/mod.rs (`Arc<str>` fields as `Str`, the
`RefCell<Vec<_>>` as a plain list). -/
structure Image : Type where
  cloud_name : Str
  public_id : Str
  format : Option Str
  transformations : List Transformations

/-- `Image::new`. -/
def Image.new (cloud_name public_id : Str) : Image :=
  { cloud_name := cloud_name, public_id := public_id
    format := none, transformations := [] }

/-- `Image::set_format`. -/
def Image.set_format (i : Image) (format : Str) : Image :=
  { i with format := some format }

/-- `Image::get_format`. -/
def Image.get_format (i : Image) : Option Str := i.format

/-- `Image::add_transformation`. -/
def Image.add_transformation (i : Image) (t : Transformations) : Image :=
  { i with transformations := i.transformations ++ [t] }

/-- The `url::Url` values this library handles: a host (absent for
cannot-be-a-base URLs such as `mailto:`) and the path without its leading
slash. `set_path`'s percent-encoding is the identity on the inputs the
theorems quantify over. -/
structure Url : Type where
  host : Option Str
  path : Str

/-- `Url::as_str` for the URLs built here (scheme `https`, no query). -/
def Url.render (u : Url) : Str :=
  "https://".data ++ u.host.getD [] ++ '/' :: u.path

/-- `Image::build` from transformation/mod.rs: join the rendered
transformations with `/`, compose `<cloud_name>/image/upload/{trans/}<public_id>`,
and when a format is set, replace every occurrence of the final `/`-segment of
`public_id` by `<last `.`-piece of it>.<format>` (the source's
`split('.').collect::<Vec<_>>().pop().unwrap()` takes the last piece of the
dot-split, i.e. the extension when one is present). -/
def Image.build (i : Image) : Url :=
  let transformations : Str := joinChar '/' (i.transformations.map Transformations.display)
  let path : Str :=
    i.cloud_name ++ "/image/upload/".data
      ++ (if transformations = [] then [] else transformations ++ ['/'])
      ++ i.public_id
  match i.get_format with
  | some format =>
      let file_name := (splitChar '/' i.public_id).getLastD []
      let new_file_name := (splitChar '.' file_name).getLastD [] ++ '.' :: format
      { host := some "res.cloudinary.com".data
        path := replaceAll file_name new_file_name path }
  | none =>
      { host := some "res.cloudinary.com".data, path := path }

/-- `is_transformation` from transformation/mod.rs: has a `_` and the head
before the first `_` is shorter than 4. -/
def is_transformation (s : Str) : Bool :=
  match splitOnce '_' s with
  | some (head, _) => head.length < 4
  | none => false

/-- `is_version` from transformation/mod.rs: starts with `v`, total length 11,
all remaining characters ASCII digits. -/
def is_version (s : Str) : Bool :=
  match s with
  | 'v' :: rest => rest.length = 10 && rest.all Char.isDigit
  | _ => false

/-- The delivery-mode allow-list checked at path position 2. -/
def deliveryModes : List Str :=
  ["upload", "fetch", "private", "authenticated", "sprite", "facebook",
   "twitter", "youtube", "vimeo"].map String.data

/-- Outcome of `TryFrom<Url> for Image`: `panics` models a Rust panic
(`.unwrap()` on `None`), `error` the `Err(&'static str)` channel. -/
inductive ParseOutcome : Type
  | panics
  | error (e : Str)
  | ok (img : Image)

/-- `error`'s payload when the outcome is an error, else `none`. -/
def ParseOutcome.errOf : ParseOutcome → Option Str
  | .error e => some e
  | _ => none

/-- Whether the outcome is a panic. -/
def ParseOutcome.isPanic : ParseOutcome → Bool
  | .panics => true
  | _ => false

/-- The parsed identity (cloud_name, public_id, format) on success. -/
def ParseOutcome.identity : ParseOutcome → Option (Str × Str × Option Str)
  | .ok img => some (img.cloud_name, img.public_id, img.format)
  | _ => none

/-- The `for (pos, s) in url.path_segments().unwrap().enumerate()` loop of
`TryFrom<Url> for Image`, with its state `(cloud_name, public_id_teritory,
public_id_parts)` made explicit. -/
def parseLoop : Nat → List Str → Option Str → Bool → List (Str × Option Str) →
    Except Str (Option Str × List (Str × Option Str))
  | _, [], cloud_name, _, parts => .ok (cloud_name, parts)
  | pos, s :: rest, cloud_name, teritory, parts =>
    if pos = 0 then
      parseLoop (pos + 1) rest (some s) teritory parts
    else if pos = 1 then
      if s ≠ "image".data then .error "Only image is supported".data
      else parseLoop (pos + 1) rest cloud_name teritory parts
    else if pos = 2 then
      if deliveryModes.contains s then
        parseLoop (pos + 1) rest cloud_name teritory parts
      else .error "Invalid mode".data
    else
      if !teritory && is_version s then
        parseLoop (pos + 1) rest cloud_name true parts
      else if !teritory && is_transformation s then
        parseLoop (pos + 1) rest cloud_name teritory parts
      else
        match rsplitOnce '.' s with
        | some (head, tail) =>
            parseLoop (pos + 1) rest cloud_name true (parts ++ [(head, some tail)])
        | none =>
            parseLoop (pos + 1) rest cloud_name true (parts ++ [(s, none)])

/-- The tail of `TryFrom<Url> for Image` after the host check: run the segment
loop, then require a cloud_name and a last public-id part, join the leading
parts as `head.tail/` / `head/`, and apply `set_format` when the last part had
an extension. -/
def parseAfterHost (path : Str) : ParseOutcome :=
  match parseLoop 0 (splitChar '/' path) none false [] with
  | .error e => .error e
  | .ok (cloud_name?, parts) =>
    match cloud_name? with
    | none => .error "No cloud_name is found".data
    | some cloud_name =>
      match parts.getLast? with
      | none => .error "no public_id is found".data
      | some last =>
        let parts := parts.dropLast
        let public_id : Str :=
          (parts.map (fun p =>
            match p.2 with
            | some tail => p.1 ++ '.' :: tail ++ ['/']
            | none => p.1 ++ ['/'])).flatten
        let public_id := public_id ++ last.1
        let image := Image.new cloud_name public_id
        match last.2 with
        | some extension => .ok (image.set_format extension)
        | none => .ok image

/-- `TryFrom<Url> for Image` from transformation/mod.rs. The source starts
with `url.host_str().unwrap()`: a hostless URL panics. -/
def Image.tryFromUrl (u : Url) : ParseOutcome :=
  match u.host with
  | none => .panics
  | some h =>
    if h ≠ "res.cloudinary.com".data then .error "Not a cloudinary url".data
    else parseAfterHost u.path

/-! ## Token sequences for the ordering claims

A rendered segment is a comma-join of directive tokens. `segmentTokens` lists
the tokens in the order the code actually emits them (gravity between the mode
token and the dimension for Crop/Pad; the liquid flag after the dimensions for
Resize). `claimedTokens` lists them in the order claim C2 states (gravity
trailing, after the dimension). -/

/-- The dimension token `w_<width>`. -/
def wTok (width : Nat) : Str := "w_".data ++ natStr width

/-- The dimension token `h_<height>`. -/
def hTok (height : Nat) : Str := "h_".data ++ natStr height

/-- Tokens of a rendered segment in the order the code emits them. -/
def segmentTokens : Transformations → List Str
  | .Resize (.ScaleByWidth width ar liquid) =>
      optTok ar AspectRatio.display ++ ["c_scale".data] ++ [wTok width]
        ++ optTok liquid (fun _ => "g_liquid".data)
  | .Resize (.ScaleByHeight height ar liquid) =>
      optTok ar AspectRatio.display ++ ["c_scale".data] ++ [hTok height]
        ++ optTok liquid (fun _ => "g_liquid".data)
  | .Resize (.Scale width height liquid) =>
      ["c_scale".data, wTok width, hTok height]
        ++ optTok liquid (fun _ => "g_liquid".data)
  | .Crop (.FillByWidth width ar gravity) =>
      optTok ar AspectRatio.display ++ ["c_fill".data]
        ++ optTok gravity Gravity.display ++ [wTok width]
  | .Crop (.FillByHeight height ar gravity) =>
      optTok ar AspectRatio.display ++ ["c_fill".data]
        ++ optTok gravity Gravity.display ++ [hTok height]
  | .Crop (.Fill width height gravity) =>
      ["c_fill".data] ++ optTok gravity Gravity.display
        ++ [wTok width, hTok height]
  | .Pad (.PadByWidth width ar background gravity) =>
      optTok background Background.display ++ optTok ar AspectRatio.display
        ++ ["c_pad".data] ++ optTok gravity Gravity.display ++ [wTok width]
  | .Pad (.PadByHeight height ar background gravity) =>
      optTok background Background.display ++ optTok ar AspectRatio.display
        ++ ["c_pad".data] ++ optTok gravity Gravity.display ++ [hTok height]
  | .Pad (.Pad width height background gravity) =>
      optTok background Background.display ++ ["c_pad".data]
        ++ optTok gravity Gravity.display ++ [wTok width, hTok height]

/-- Tokens in the order claim C2 states:
`{background,}{aspect_ratio,}{mode}_{dimension}{,gravity}`, i.e. the gravity
(or liquid) qualifier trailing after the dimension token(s). -/
def claimedTokens : Transformations → List Str
  | .Resize (.ScaleByWidth width ar liquid) =>
      optTok ar AspectRatio.display ++ ["c_scale".data] ++ [wTok width]
        ++ optTok liquid (fun _ => "g_liquid".data)
  | .Resize (.ScaleByHeight height ar liquid) =>
      optTok ar AspectRatio.display ++ ["c_scale".data] ++ [hTok height]
        ++ optTok liquid (fun _ => "g_liquid".data)
  | .Resize (.Scale width height liquid) =>
      ["c_scale".data, wTok width, hTok height]
        ++ optTok liquid (fun _ => "g_liquid".data)
  | .Crop (.FillByWidth width ar gravity) =>
      optTok ar AspectRatio.display ++ ["c_fill".data] ++ [wTok width]
        ++ optTok gravity Gravity.display
  | .Crop (.FillByHeight height ar gravity) =>
      optTok ar AspectRatio.display ++ ["c_fill".data] ++ [hTok height]
        ++ optTok gravity Gravity.display
  | .Crop (.Fill width height gravity) =>
      ["c_fill".data, wTok width, hTok height]
        ++ optTok gravity Gravity.display
  | .Pad (.PadByWidth width ar background gravity) =>
      optTok background Background.display ++ optTok ar AspectRatio.display
        ++ ["c_pad".data] ++ [wTok width] ++ optTok gravity Gravity.display
  | .Pad (.PadByHeight height ar background gravity) =>
      optTok background Background.display ++ optTok ar AspectRatio.display
        ++ ["c_pad".data] ++ [hTok height] ++ optTok gravity Gravity.display
  | .Pad (.Pad width height background gravity) =>
      optTok background Background.display ++ ["c_pad".data]
        ++ [wTok width, hTok height] ++ optTok gravity Gravity.display

/-- RFC 3986 unreserved characters, on which the url crate's path
percent-encoding is the identity. -/
def urlSafe (c : Char) : Bool :=
  c.isAlphanum || c = '-' || c = '_' || c = '.' || c = '~'

/-- `pat` matches at no position strictly before `k` in `s` (decidable form of
the "only occurrence is the final one" side condition on `str::replace`). -/
def noOccursBefore (pat s : Str) (k : Nat) : Bool :=
  (List.range k).all (fun i => !(pat.isPrefixOf (s.drop i)))

/-- The final `/`-segment of the path that `build` emits for an identity:
the assetId itself, or `assetId.format` when a format is set. -/
def finalSegOf (public_id : Str) (format : Option Str) : Str :=
  match format with
  | none => public_id
  | some f => public_id ++ '.' :: f

/-! ## Supporting lemmas about the string helpers -/

theorem noOccursBefore_spec {pat s : Str} {k : Nat}
    (h : noOccursBefore pat s k = true) :
    ∀ i, i < k → pat.isPrefixOf (s.drop i) = false := by
  intro i hi
  have := List.all_eq_true.mp h i (List.mem_range.mpr hi)
  simpa using this

theorem splitChar_ne_nil (c : Char) (s : Str) : splitChar c s ≠ [] := by
  cases s with
  | nil => simp [splitChar]
  | cons x xs =>
    simp only [splitChar]
    cases splitChar c xs with
    | nil => simp
    | cons h t =>
      by_cases hx : x = c <;> simp [hx]

theorem splitChar_of_not_mem {c : Char} {s : Str} (h : c ∉ s) :
    splitChar c s = [s] := by
  induction s with
  | nil => rfl
  | cons x xs ih =>
    have hx : ¬x = c := by
      intro e; exact h (e ▸ List.mem_cons_self x xs)
    have hxs : c ∉ xs := fun m => h (List.mem_cons_of_mem _ m)
    simp [splitChar, ih hxs, hx]

theorem splitChar_append {c : Char} {a : Str} (rest : Str) (h : c ∉ a) :
    splitChar c (a ++ c :: rest) = a :: splitChar c rest := by
  induction a with
  | nil =>
    simp only [List.nil_append, splitChar]
    have := splitChar_ne_nil c rest
    cases hs : splitChar c rest with
    | nil => exact absurd hs this
    | cons hh tt => simp
  | cons x a' ih =>
    have hx : ¬x = c := by
      intro e; exact h (e ▸ List.mem_cons_self x a')
    have ha' : c ∉ a' := fun m => h (List.mem_cons_of_mem _ m)
    simp only [List.cons_append, splitChar, List.append_eq, ih ha', hx, if_false]

theorem rsplitOnce_of_not_mem {c : Char} {s : Str} (h : c ∉ s) :
    rsplitOnce c s = none := by
  induction s with
  | nil => rfl
  | cons x xs ih =>
    have hx : ¬x = c := by
      intro e; exact h (e ▸ List.mem_cons_self x xs)
    have hxs : c ∉ xs := fun m => h (List.mem_cons_of_mem _ m)
    simp [rsplitOnce, ih hxs, hx]

theorem rsplitOnce_last {c : Char} {a b : Str} (ha : c ∉ a) (hb : c ∉ b) :
    rsplitOnce c (a ++ c :: b) = some (a, b) := by
  induction a with
  | nil => simp [rsplitOnce, rsplitOnce_of_not_mem hb]
  | cons x a' ih =>
    have ha' : c ∉ a' := fun m => ha (List.mem_cons_of_mem _ m)
    simp [rsplitOnce, ih ha']

theorem replaceGo_append_pat (repl : Str) {pat a : Str} (hp : pat ≠ [])
    (h : ∀ i, i < a.length → pat.isPrefixOf ((a ++ pat).drop i) = false)
    {fuel : Nat} (hf : (a ++ pat).length ≤ fuel) :
    replaceGo pat repl fuel (a ++ pat) = a ++ repl := by
  induction a generalizing fuel with
  | nil =>
    obtain ⟨p, ps, rfl⟩ : ∃ p ps, pat = p :: ps := by
      cases pat with
      | nil => exact absurd rfl hp
      | cons p ps => exact ⟨p, ps, rfl⟩
    cases fuel with
    | zero => simp at hf
    | succ f =>
      have hpref : (p :: ps).isPrefixOf (p :: ps) = true := by
        rw [List.isPrefixOf_iff_prefix]
      simp [replaceGo, hpref, List.drop_length]
  | cons x a' ih =>
    cases fuel with
    | zero => simp at hf
    | succ f =>
      have h0 : pat.isPrefixOf (x :: (a' ++ pat)) = false := by
        have := h 0 (by simp)
        simpa using this
      have hrec : ∀ i, i < a'.length →
          pat.isPrefixOf ((a' ++ pat).drop i) = false := by
        intro i hi
        have := h (i + 1) (by simpa using Nat.succ_lt_succ hi)
        simpa using this
      have hf' : (a' ++ pat).length ≤ f := by
        simp only [List.cons_append, List.length_cons] at hf
        omega
      simp [replaceGo, h0, ih hrec hf']

/-! ## Theorems -/

/-- Claim C1: the claim says `build` with a format set strips the filename's
existing extension and appends `.<format>`, so assetId `path/name.jpg` with
format `png` must yield a URL ending in `name.png`. The code instead keeps
only the LAST `.`-piece of the filename (`split('.').collect().pop()`), so the
URL ends in `jpg.png`: the base name is dropped and the old extension kept. -/
theorem build_format_replaces_basename_with_extension :
    Url.render (Image.build
      ((Image.new "test".data "path/name.jpg".data).set_format "png".data))
      = "https://res.cloudinary.com/test/image/upload/path/jpg.png".data := by
  decide

/-- Claim C2, counterexample: `PadByWidth { width: 100, gravity: North }` renders as
`c_pad,g_north,w_100` — gravity between the mode token and the dimension — and
not as the claimed template `{mode}_{dimension}{,gravity}` (which here reads
`c_pad,w_100,g_north`). -/
theorem pad_gravity_not_trailing :
    Transformations.display (.Pad (.PadByWidth 100 none none (some .North)))
        = "c_pad,g_north,w_100".data
      ∧ Transformations.display (.Pad (.PadByWidth 100 none none (some .North)))
        ≠ joinChar ','
            (claimedTokens (.Pad (.PadByWidth 100 none none (some .North)))) := by
  constructor
  · decide
  · decide

/-- Claim C2, amended: every rendered segment is the comma-join of its directive
tokens in the order Background (Pad only), AspectRatio, mode token, Gravity,
dimension token(s) (`w` before `h`) — gravity precedes the dimension for Crop
and Pad; only Resize's liquid flag `g_liquid` trails after the dimensions. -/
theorem display_eq_joined_segmentTokens (t : Transformations) :
    Transformations.display t = joinChar ',' (segmentTokens t) := by
  rcases t with r | c | p
  · rcases r with ⟨w, ar, l⟩ | ⟨h, ar, l⟩ | ⟨w, h, l⟩ <;>
      try rcases ar with _ | a
    all_goals rcases l with _ | u
    all_goals
      simp only [Transformations.display, ResizeMode.display, segmentTokens,
        optStr, optTok, joinChar, wTok, hTok, List.append_assoc,
        List.cons_append, List.nil_append, List.append_nil,
        List.singleton_append]
  · rcases c with ⟨w, ar, g⟩ | ⟨h, ar, g⟩ | ⟨w, h, g⟩ <;>
      try rcases ar with _ | a
    all_goals rcases g with _ | g
    all_goals
      simp only [Transformations.display, CropMode.display, segmentTokens,
        optStr, optTok, joinChar, wTok, hTok, List.append_assoc,
        List.cons_append, List.nil_append, List.append_nil,
        List.singleton_append]
  · rcases p with ⟨w, ar, b, g⟩ | ⟨h, ar, b, g⟩ | ⟨w, h, b, g⟩ <;>
      try rcases ar with _ | a
    all_goals rcases b with _ | b
    all_goals rcases g with _ | g
    all_goals
      simp only [Transformations.display, PadMode.display, segmentTokens,
        optStr, optTok, joinChar, wTok, hTok, List.append_assoc,
        List.cons_append, List.nil_append, List.append_nil,
        List.singleton_append]

/-- Parsing a path of the exact shape `<ns>/image/upload/<seg>` where `seg` is
classified into asset-id territory: the result is `ns` plus `seg` split at its
last dot. -/
theorem parseAfterHost_single (ns seg : Str) (hns : '/' ∉ ns)
    (hseg : '/' ∉ seg)
    (ht : is_transformation seg = false) (hv : is_version seg = false) :
    parseAfterHost (ns ++ '/' :: ("image".data ++ '/' :: ("upload".data ++ '/' :: seg)))
      = match rsplitOnce '.' seg with
        | some (head, tail) => .ok ((Image.new ns head).set_format tail)
        | none => .ok (Image.new ns seg) := by
  have h2 : ('/' : Char) ∉ "image".data := by decide
  have h3 : ('/' : Char) ∉ "upload".data := by decide
  have hsegs : splitChar '/' (ns ++ '/' :: ("image".data ++ '/' :: ("upload".data ++ '/' :: seg)))
      = ns :: "image".data :: "upload".data :: [seg] := by
    rw [splitChar_append _ hns, splitChar_append _ h2, splitChar_append _ h3,
      splitChar_of_not_mem hseg]
  have hm : "upload".data ∈ deliveryModes := by decide
  simp only [parseAfterHost, hsegs]
  cases hr : rsplitOnce '.' seg with
  | none =>
    simp [parseLoop, ht, hv, hr, hm]
  | some pr =>
    obtain ⟨head, tail⟩ := pr
    simp [parseLoop, ht, hv, hr, hm]

/-- Claim C3, counterexample: the identity (namespace `test`, assetId `c_scale`, no
format) satisfies every precondition of the claim — no `/`, no `.`, only
unreserved characters — yet parsing the built URL does not return the identity:
the segment `c_scale` matches the transformation heuristic and is discarded,
so the parser fails with `no public_id is found`. -/
theorem roundtrip_fails_on_heuristic_assetId :
    ('/' ∉ "c_scale".data ∧ '.' ∉ "c_scale".data
        ∧ "c_scale".data.all urlSafe = true)
      ∧ (Image.tryFromUrl (Image.build (Image.new "test".data "c_scale".data))).identity
          = none
      ∧ (Image.tryFromUrl (Image.build (Image.new "test".data "c_scale".data))).errOf
          = some "no public_id is found".data := by
  decide

/-- Claim C3, amended: the round trip holds once the final rendered segment is also
required to escape the parser's discarding heuristics (not
transformation-shaped, not version-shaped) and, when a format is set, the
assetId does not occur as a substring earlier in the rendered path (the
source's `str::replace` replaces every occurrence): for every such identity,
parsing the built URL returns the same namespace, assetId and format. -/
theorem roundtrip_parse_build (ns aid : Str) (fmt : Option Str)
    (_hns : ns ≠ []) (haid : aid ≠ [])
    (hns_slash : '/' ∉ ns) (haid_slash : '/' ∉ aid) (haid_dot : '.' ∉ aid)
    (_hsafe : (ns ++ aid ++ fmt.getD []).all urlSafe = true)
    (hfmt : match fmt with
      | none => True
      | some f => '.' ∉ f ∧ '/' ∉ f ∧
          noOccursBefore aid (ns ++ "/image/upload/".data ++ aid)
            (ns.length + 14) = true)
    (ht : is_transformation (finalSegOf aid fmt) = false)
    (hv : is_version (finalSegOf aid fmt) = false) :
    (Image.tryFromUrl (Image.build { Image.new ns aid with format := fmt })).identity
      = some (ns, aid, fmt) := by
  cases fmt with
  | none =>
    have hb : Image.build { Image.new ns aid with format := none }
        = ⟨some "res.cloudinary.com".data,
            ns ++ '/' :: ("image".data ++ '/' :: ("upload".data ++ '/' :: aid))⟩ := by
      simp only [Image.build, Image.new, Image.get_format, List.map_nil,
        joinChar, if_pos rfl, List.append_assoc, List.nil_append]
      rfl
    rw [hb]
    show (if "res.cloudinary.com".data ≠ "res.cloudinary.com".data
        then ParseOutcome.error "Not a cloudinary url".data
        else parseAfterHost _).identity = _
    rw [if_neg (by simp)]
    rw [parseAfterHost_single ns aid hns_slash haid_slash ht hv]
    rw [rsplitOnce_of_not_mem haid_dot]
    rfl
  | some f =>
    obtain ⟨hf_dot, hf_slash, hocc⟩ := hfmt
    have hsplit1 : splitChar '/' aid = [aid] := splitChar_of_not_mem haid_slash
    have hsplit2 : splitChar '.' aid = [aid] := splitChar_of_not_mem haid_dot
    have hlast1 : (splitChar '/' aid).getLastD [] = aid := by rw [hsplit1]; rfl
    have hlast2 : (splitChar '.' aid).getLastD [] = aid := by rw [hsplit2]; rfl
    have hb : Image.build { Image.new ns aid with format := some f }
        = ⟨some "res.cloudinary.com".data,
            replaceAll aid (aid ++ '.' :: f)
              (ns ++ "/image/upload/".data ++ aid)⟩ := by
      simp only [Image.build, Image.new, Image.get_format, List.map_nil,
        joinChar, eq_self_iff_true, if_true, hlast1, hlast2, List.append_nil]
    have hAlen : (ns ++ "/image/upload/".data).length = ns.length + 14 := by
      have h14 : "/image/upload/".data.length = 14 := by decide
      rw [List.length_append, h14]
    have hrepl : replaceAll aid (aid ++ '.' :: f)
        (ns ++ "/image/upload/".data ++ aid)
        = (ns ++ "/image/upload/".data) ++ (aid ++ '.' :: f) := by
      rw [replaceAll, if_neg haid]
      exact replaceGo_append_pat _ haid
        (by
          intro i hi
          exact noOccursBefore_spec hocc i (by rw [hAlen] at hi; exact hi))
        (le_refl _)
    have hform : (ns ++ "/image/upload/".data) ++ (aid ++ '.' :: f)
        = ns ++ '/' :: ("image".data ++ '/' :: ("upload".data ++ '/' :: (aid ++ '.' :: f))) := by
      simp only [List.append_assoc]
      rfl
    have hseg_slash : '/' ∉ aid ++ '.' :: f := by
      intro m
      rcases List.mem_append.mp m with m1 | m2
      · exact haid_slash m1
      · rcases List.mem_cons.mp m2 with e | m3
        · exact absurd e (by decide)
        · exact hf_slash m3
    rw [hb, hrepl, hform]
    show (if "res.cloudinary.com".data ≠ "res.cloudinary.com".data
        then ParseOutcome.error "Not a cloudinary url".data
        else parseAfterHost _).identity = _
    rw [if_neg (by simp)]
    rw [parseAfterHost_single ns (aid ++ '.' :: f) hns_slash hseg_slash ht hv]
    rw [rsplitOnce_last haid_dot hf_dot]
    rfl

/-- Claim C4: the PadByWidth fixture with all four qualifiers renders exactly
`b_auto:border_gradient:4:vertical:palette_black_white,ar_16:9,c_pad,g_north,w_100`. -/
theorem pad_by_width_full_fixture :
    PadMode.display (.PadByWidth 100 (some (.Sides 16 9))
        (some (.Auto ⟨some .BorderGradient, some .Four, some .Vertical,
          some [.Named .Black, .Named .White]⟩))
        (some .North))
      = "b_auto:border_gradient:4:vertical:palette_black_white,ar_16:9,c_pad,g_north,w_100".data := by
  decide

/-- Claim C5: building (namespace `test`, assetId `path/name`) with one
`ScaleByWidth { width: 100, ar: Sides(16,9), liquid: Some(()) }` yields exactly
`https://res.cloudinary.com/test/image/upload/ar_16:9,c_scale,w_100,g_liquid/path/name`. -/
theorem build_scale_by_width_liquid_fixture :
    Url.render (Image.build
      ((Image.new "test".data "path/name".data).add_transformation
        (.Resize (.ScaleByWidth 100 (some (.Sides 16 9)) (some ())))))
      = "https://res.cloudinary.com/test/image/upload/ar_16:9,c_scale,w_100,g_liquid/path/name".data := by
  decide

/-- Claim C6: parsing the fixture URL yields namespace `i`, assetId `path/name`,
format `jpg`; `v1233456678` matches the version pattern and
`c_scale,h_800,q_auto` matches the transformation heuristic (head before the
first `_` shorter than 4), so neither contributes to the assetId. -/
theorem parse_skips_transformation_and_version :
    (Image.tryFromUrl ⟨some "res.cloudinary.com".data,
        "i/image/upload/c_scale,h_800,q_auto/v1233456678/path/name.jpg".data⟩).identity
        = some ("i".data, "path/name".data, some "jpg".data)
      ∧ is_version "v1233456678".data = true
      ∧ is_transformation "c_scale,h_800,q_auto".data = true := by
  decide

/-- Witness for the amended round trip: the identity (namespace `demo`,
assetId `sample`, format `png`) satisfies every hypothesis, and parsing the
built URL returns it. -/
theorem roundtrip_parse_build_witness :
    is_transformation (finalSegOf "sample".data (some "png".data)) = false
      ∧ (Image.tryFromUrl (Image.build
          { Image.new "demo".data "sample".data with format := some "png".data })).identity
        = some ("demo".data, "sample".data, some "png".data) :=
  ⟨by decide,
    roundtrip_parse_build "demo".data "sample".data (some "png".data)
      (by decide) (by decide) (by decide) (by decide) (by decide) (by decide)
      (by decide) (by decide) (by decide)⟩

/-- After position 2, if every run of the loop from a state whose parts are
empty whenever the latch is off ends in `.ok`, the final pushed part comes
from the final segment: when that segment has no `.`, the last part carries no
extension. -/
theorem parseLoop_last_part_no_ext (segs : List Str) :
    ∀ (pos : Nat) (cn : Option Str) (ter : Bool)
      (parts : List (Str × Option Str)),
    3 ≤ pos → (ter = false → parts = []) → segs ≠ [] →
    '.' ∉ segs.getLastD [] →
    ∀ cn' parts', parseLoop pos segs cn ter parts = .ok (cn', parts') →
    parts' = [] ∨ (parts'.getLastD ([], none)).2 = none := by
  induction segs with
  | nil => intro _ _ _ _ _ _ hne; exact absurd rfl hne
  | cons s rest ih =>
    intro pos cn ter parts hpos hinv _ hdot cn' parts' heq
    have h0 : ¬pos = 0 := by omega
    have h1 : ¬pos = 1 := by omega
    have h2 : ¬pos = 2 := by omega
    rw [parseLoop] at heq
    rw [if_neg h0, if_neg h1, if_neg h2] at heq
    cases rest with
    | nil =>
      have hdot' : '.' ∉ s := hdot
      by_cases hvb : (!ter && is_version s) = true
      · rw [if_pos hvb] at heq
        rw [parseLoop] at heq
        have hter : ter = false := by
          cases ter
          · rfl
          · simp at hvb
        simp only [Except.ok.injEq, Prod.mk.injEq] at heq
        left
        rw [← heq.2, hinv hter]
      · rw [if_neg hvb] at heq
        by_cases htb : (!ter && is_transformation s) = true
        · rw [if_pos htb] at heq
          rw [parseLoop] at heq
          have hter : ter = false := by
            cases ter
            · rfl
            · simp at htb
          simp only [Except.ok.injEq, Prod.mk.injEq] at heq
          left
          rw [← heq.2, hinv hter]
        · rw [if_neg htb, rsplitOnce_of_not_mem hdot'] at heq
          rw [parseLoop] at heq
          simp only [Except.ok.injEq, Prod.mk.injEq] at heq
          right
          rw [← heq.2, List.getLastD_concat]
    | cons s2 rest2 =>
      have hdot2 : '.' ∉ (s2 :: rest2).getLastD [] := hdot
      by_cases hvb : (!ter && is_version s) = true
      · rw [if_pos hvb] at heq
        exact ih (pos + 1) cn true parts (by omega)
          (fun h => nomatch h) (by simp) hdot2 cn' parts' heq
      · rw [if_neg hvb] at heq
        by_cases htb : (!ter && is_transformation s) = true
        · rw [if_pos htb] at heq
          exact ih (pos + 1) cn ter parts (by omega)
            hinv (by simp) hdot2 cn' parts' heq
        · rw [if_neg htb] at heq
          cases hr : rsplitOnce '.' s with
          | none =>
            rw [hr] at heq
            exact ih (pos + 1) cn true (parts ++ [(s, none)]) (by omega)
              (fun h => nomatch h) (by simp) hdot2 cn' parts' heq
          | some pr =>
            obtain ⟨head, tail⟩ := pr
            rw [hr] at heq
            exact ih (pos + 1) cn true (parts ++ [(head, some tail)]) (by omega)
              (fun h => nomatch h) (by simp) hdot2 cn' parts' heq

/-- Positions 0-2 of the loop: namespace captured, `image` literal accepted,
delivery mode accepted. -/
theorem parseLoop_steps012 (s0 s1 s2 : Str) (rest : List Str)
    (hs1 : s1 = "image".data) (hs2 : deliveryModes.contains s2 = true) :
    parseLoop 0 (s0 :: s1 :: s2 :: rest) none false []
      = parseLoop 3 rest (some s0) false [] := by
  rw [parseLoop, if_pos rfl, parseLoop, if_neg (by decide), if_pos rfl,
    if_neg (fun hc => hc hs1), parseLoop, if_neg (by decide),
    if_neg (by decide), if_pos rfl, if_pos hs2]

/-- Position 1 of the loop: a non-`image` segment aborts with
`Only image is supported`. -/
theorem parseLoop_step_image_err (s0 s1 : Str) (rest : List Str)
    (hs1 : s1 ≠ "image".data) :
    parseLoop 0 (s0 :: s1 :: rest) none false []
      = .error "Only image is supported".data := by
  rw [parseLoop, if_pos rfl, parseLoop, if_neg (by decide), if_pos rfl,
    if_pos hs1]

/-- Position 2 of the loop: a segment outside the allow-list aborts with
`Invalid mode`. -/
theorem parseLoop_step_mode_err (s0 s2 : Str) (rest : List Str)
    (hs2 : ¬deliveryModes.contains s2 = true) :
    parseLoop 0 (s0 :: "image".data :: s2 :: rest) none false []
      = .error "Invalid mode".data := by
  rw [parseLoop, if_pos rfl, parseLoop, if_neg (by decide), if_pos rfl,
    if_neg (fun hc => hc rfl), parseLoop, if_neg (by decide),
    if_neg (by decide), if_pos rfl, if_neg hs2]

/-- Claim C7: the format comes only from the LAST `.` of the final asset-id segment:
parsing `.../upload/ar_0.5,foo/1.2.jpg` yields assetId `1.2` and format `jpg`,
and whenever parsing any URL succeeds and the final path segment contains no
`.`, the parsed format is `None`. -/
theorem parse_format_from_last_dot :
    ((Image.tryFromUrl ⟨some "res.cloudinary.com".data,
        "test/image/upload/ar_0.5,foo/1.2.jpg".data⟩).identity
        = some ("test".data, "1.2".data, some "jpg".data))
      ∧ (∀ (u : Url) (ns aid : Str) (f : Option Str),
          (Image.tryFromUrl u).identity = some (ns, aid, f) →
          '.' ∉ (splitChar '/' u.path).getLastD [] →
          f = none) := by
  constructor
  · decide
  · intro u ns aid f hok hdot
    cases hu : u.host with
    | none =>
      rw [Image.tryFromUrl, hu] at hok
      simp [ParseOutcome.identity] at hok
    | some h =>
      rw [Image.tryFromUrl, hu] at hok
      simp only at hok
      by_cases hh : h = "res.cloudinary.com".data
      · rw [if_neg (fun hc => hc hh)] at hok
        rw [parseAfterHost] at hok
        cases hsg : splitChar '/' u.path with
        | nil => exact absurd hsg (splitChar_ne_nil '/' u.path)
        | cons s0 rest0 =>
          rw [hsg] at hok
          cases rest0 with
          | nil =>
            rw [parseLoop, if_pos rfl, parseLoop] at hok
            simp [ParseOutcome.identity] at hok
          | cons s1 rest1 =>
            by_cases hs1 : s1 = "image".data
            · cases rest1 with
              | nil =>
                subst hs1
                rw [parseLoop, if_pos rfl, parseLoop, if_neg (by decide),
                  if_pos rfl, if_neg (fun hc => hc rfl), parseLoop] at hok
                simp [ParseOutcome.identity] at hok
              | cons s2 rest2 =>
                by_cases hs2 : deliveryModes.contains s2 = true
                · subst hs1
                  cases rest2 with
                  | nil =>
                    rw [parseLoop_steps012 s0 _ s2 [] rfl hs2, parseLoop] at hok
                    simp [ParseOutcome.identity] at hok
                  | cons s3 rest3 =>
                    rw [parseLoop_steps012 s0 _ s2 (s3 :: rest3) rfl hs2] at hok
                    cases hres : parseLoop 3 (s3 :: rest3) (some s0) false [] with
                    | error e =>
                      rw [hres] at hok
                      simp [ParseOutcome.identity] at hok
                    | ok pr =>
                      obtain ⟨cnr, partsr⟩ := pr
                      rw [hres] at hok
                      have hdot3 : '.' ∉ (s3 :: rest3).getLastD [] := by
                        rw [hsg] at hdot
                        exact hdot
                      have hlast := parseLoop_last_part_no_ext (s3 :: rest3) 3
                        (some s0) false [] (le_refl 3) (fun _ => rfl)
                        (by simp) hdot3 cnr partsr hres
                      cases cnr with
                      | none => simp [ParseOutcome.identity] at hok
                      | some c =>
                        rcases hlast with hnilp | hext
                        · subst hnilp
                          simp [ParseOutcome.identity] at hok
                        · cases hlp : partsr.getLast? with
                          | none =>
                            simp only [hlp] at hok
                            simp [ParseOutcome.identity] at hok
                          | some last =>
                            have hl2 : last.2 = none := by
                              rw [List.getLastD_eq_getLast?, hlp] at hext
                              simpa using hext
                            obtain ⟨l1, l2⟩ := last
                            simp only at hl2
                            subst hl2
                            simp only [hlp] at hok
                            simp [ParseOutcome.identity, Image.new] at hok
                            exact hok.2.2.symm
                · subst hs1
                  rw [parseLoop_step_mode_err s0 s2 rest2 hs2] at hok
                  simp [ParseOutcome.identity] at hok
            · rw [parseLoop_step_image_err s0 s1 rest1 hs1] at hok
              simp [ParseOutcome.identity] at hok
      · rw [if_pos hh] at hok
        simp [ParseOutcome.identity] at hok

/-- Witness for C7's universal part: a URL whose final segment `name` has no
dot parses with format `None`. -/
theorem parse_format_from_last_dot_witness :
    ((Image.tryFromUrl ⟨some "res.cloudinary.com".data,
        "c/image/upload/folder/name".data⟩).identity
        = some ("c".data, "folder/name".data, (none : Option Str)))
      ∧ (none : Option Str) = none :=
  ⟨by decide,
    parse_format_from_last_dot.2
      ⟨some "res.cloudinary.com".data, "c/image/upload/folder/name".data⟩
      "c".data "folder/name".data none (by decide) (by decide)⟩

/-- The segment loop itself only ever fails with the `image`-literal error or
the delivery-mode error. -/
theorem parseLoop_error_cases (segs : List Str) :
    ∀ (pos : Nat) (cn : Option Str) (ter : Bool)
      (parts : List (Str × Option Str)) (e : Str),
    parseLoop pos segs cn ter parts = .error e →
    e = "Only image is supported".data ∨ e = "Invalid mode".data := by
  induction segs with
  | nil =>
    intro pos cn ter parts e h
    rw [parseLoop] at h
    exact absurd h (by simp)
  | cons s rest ih =>
    intro pos cn ter parts e h
    rw [parseLoop] at h
    by_cases h0 : pos = 0
    · rw [if_pos h0] at h; exact ih _ _ _ _ _ h
    · rw [if_neg h0] at h
      by_cases h1 : pos = 1
      · rw [if_pos h1] at h
        by_cases hs : s ≠ "image".data
        · rw [if_pos hs] at h
          simp only [Except.error.injEq] at h
          exact Or.inl h.symm
        · rw [if_neg hs] at h; exact ih _ _ _ _ _ h
      · rw [if_neg h1] at h
        by_cases h2 : pos = 2
        · rw [if_pos h2] at h
          by_cases hm : deliveryModes.contains s = true
          · rw [if_pos hm] at h; exact ih _ _ _ _ _ h
          · rw [if_neg hm] at h
            simp only [Except.error.injEq] at h
            exact Or.inr h.symm
        · rw [if_neg h2] at h
          by_cases hv : (!ter && is_version s) = true
          · rw [if_pos hv] at h; exact ih _ _ _ _ _ h
          · rw [if_neg hv] at h
            by_cases htr : (!ter && is_transformation s) = true
            · rw [if_pos htr] at h; exact ih _ _ _ _ _ h
            · rw [if_neg htr] at h
              cases hr : rsplitOnce '.' s with
              | none => rw [hr] at h; exact ih _ _ _ _ _ h
              | some pr =>
                obtain ⟨hd, tl⟩ := pr
                rw [hr] at h; exact ih _ _ _ _ _ h

/-- Past the host check, the parser always returns a tagged value, never a
panic. -/
theorem parseAfterHost_no_panic (path : Str) :
    (parseAfterHost path).isPanic = false := by
  rw [parseAfterHost]
  split
  · rfl
  · split
    · rfl
    · split
      · rfl
      · split <;> rfl

/-- Every error the parser emits past the host check is one of the four
in-loop or assembly error strings. -/
theorem parseAfterHost_error_mem (path e : Str)
    (h : (parseAfterHost path).errOf = some e) :
    e = "Only image is supported".data ∨ e = "Invalid mode".data
      ∨ e = "No cloud_name is found".data
      ∨ e = "no public_id is found".data := by
  cases hres : parseLoop 0 (splitChar '/' path) none false [] with
  | error e' =>
    rw [parseAfterHost, hres] at h
    simp only [ParseOutcome.errOf, Option.some.injEq] at h
    rcases parseLoop_error_cases _ 0 none false [] e' hres with h1 | h2
    · exact Or.inl (h ▸ h1)
    · exact Or.inr (Or.inl (h ▸ h2))
  | ok pr =>
    obtain ⟨cn?, parts⟩ := pr
    rw [parseAfterHost, hres] at h
    cases cn? with
    | none =>
      simp only [ParseOutcome.errOf, Option.some.injEq] at h
      exact Or.inr (Or.inr (Or.inl h.symm))
    | some c =>
      cases hlp : parts.getLast? with
      | none =>
        simp only [hlp, ParseOutcome.errOf, Option.some.injEq] at h
        exact Or.inr (Or.inr (Or.inr h.symm))
      | some last =>
        obtain ⟨l1, l2⟩ := last
        cases l2 with
        | none =>
          simp only [hlp, ParseOutcome.errOf] at h
          exact Option.noConfusion h
        | some ext =>
          simp only [hlp, ParseOutcome.errOf] at h
          exact Option.noConfusion h

/-- Claim C8, counterexample: a URL with no host (e.g. a `mailto:` URL) is "not the
expected delivery host", but the parser panics on `.unwrap()` instead of
returning the host-mismatch tagged error. -/
theorem hostless_url_panics_untagged :
    (Image.tryFromUrl ⟨none, "demo/image/upload/pic".data⟩).isPanic = true
      ∧ (Image.tryFromUrl ⟨none, "demo/image/upload/pic".data⟩).errOf = none := by
  decide

/-- Claim C8, amended: provided the URL has a host, the parser returns a distinct
tagged error for each failure class and never panics nor returns a partial
result: `Not a cloudinary url` on host mismatch, `Only image is supported`
when segment 1 is not `image`, `Invalid mode` when segment 2 is outside the
allow-list, `no public_id is found` when no asset-id segment remains, and
every emitted error is one of the five tags (there is no EmptyInput class: an
empty URL string is rejected by URL parsing upstream, before this parser). -/
theorem parse_error_taxonomy (u : Url) (h : Str) (hh : u.host = some h) :
    (Image.tryFromUrl u).isPanic = false
      ∧ (h ≠ "res.cloudinary.com".data →
          (Image.tryFromUrl u).errOf = some "Not a cloudinary url".data)
      ∧ (∀ s0 s1 rest, h = "res.cloudinary.com".data →
          splitChar '/' u.path = s0 :: s1 :: rest → s1 ≠ "image".data →
          (Image.tryFromUrl u).errOf = some "Only image is supported".data)
      ∧ (∀ s0 s2 rest, h = "res.cloudinary.com".data →
          splitChar '/' u.path = s0 :: "image".data :: s2 :: rest →
          ¬deliveryModes.contains s2 = true →
          (Image.tryFromUrl u).errOf = some "Invalid mode".data)
      ∧ (∀ c, h = "res.cloudinary.com".data →
          parseLoop 0 (splitChar '/' u.path) none false [] = .ok (some c, []) →
          (Image.tryFromUrl u).errOf = some "no public_id is found".data)
      ∧ (∀ e, (Image.tryFromUrl u).errOf = some e →
          e = "Not a cloudinary url".data ∨ e = "Only image is supported".data
            ∨ e = "Invalid mode".data ∨ e = "No cloud_name is found".data
            ∨ e = "no public_id is found".data) := by
  have htry : Image.tryFromUrl u
      = (if h ≠ "res.cloudinary.com".data
          then ParseOutcome.error "Not a cloudinary url".data
          else parseAfterHost u.path) := by
    rw [Image.tryFromUrl, hh]
  refine ⟨?_, ?_, ?_, ?_, ?_, ?_⟩
  · rw [htry]
    by_cases hne : h = "res.cloudinary.com".data
    · rw [if_neg (fun hc => hc hne)]
      exact parseAfterHost_no_panic _
    · rw [if_pos hne]; rfl
  · intro hne
    rw [htry, if_pos hne]; rfl
  · intro s0 s1 rest heq hsg hs1
    rw [htry, if_neg (fun hc => hc heq), parseAfterHost, hsg,
      parseLoop_step_image_err s0 s1 rest hs1]
    rfl
  · intro s0 s2 rest heq hsg hs2
    rw [htry, if_neg (fun hc => hc heq), parseAfterHost, hsg,
      parseLoop_step_mode_err s0 s2 rest hs2]
    rfl
  · intro c heq hloop
    rw [htry, if_neg (fun hc => hc heq), parseAfterHost, hloop]
    rfl
  · intro e he
    rw [htry] at he
    by_cases hne : h = "res.cloudinary.com".data
    · rw [if_neg (fun hc => hc hne)] at he
      rcases parseAfterHost_error_mem _ _ he with h1 | h2 | h3 | h4
      · exact Or.inr (Or.inl h1)
      · exact Or.inr (Or.inr (Or.inl h2))
      · exact Or.inr (Or.inr (Or.inr (Or.inl h3)))
      · exact Or.inr (Or.inr (Or.inr (Or.inr h4)))
    · rw [if_pos hne] at he
      simp only [ParseOutcome.errOf, Option.some.injEq] at he
      exact Or.inl he.symm

/-- Witness for the taxonomy: a URL with a wrong host yields exactly the
host-mismatch error. -/
theorem parse_error_taxonomy_witness :
    (⟨some "example.com".data, "a/image/upload/b".data⟩ : Url).host
        = some "example.com".data
      ∧ (Image.tryFromUrl ⟨some "example.com".data, "a/image/upload/b".data⟩).errOf
        = some "Not a cloudinary url".data :=
  ⟨rfl,
    (parse_error_taxonomy ⟨some "example.com".data, "a/image/upload/b".data⟩
      "example.com".data rfl).2.1 (by decide)⟩

/-- Claim C9, counterexample: `Image::new` accepts arbitrary strings, so the image
with empty namespace and empty assetId is reachable through the public
interface, violating the claimed non-emptiness invariant. -/
theorem image_new_empty_fields :
    (Image.new [] []).cloud_name = [] ∧ (Image.new [] []).public_id = [] :=
  ⟨rfl, rfl⟩

/-- Claim C9, amended: `Image::new` performs no validation: it stores namespace and
assetId verbatim (with no format and no transformations), so the non-emptiness
of `assetId`/`namespace` is an obligation on callers, not an enforced
invariant. -/
theorem image_new_stores_verbatim (ns aid : Str) :
    (Image.new ns aid).cloud_name = ns ∧ (Image.new ns aid).public_id = aid
      ∧ (Image.new ns aid).format = none
      ∧ (Image.new ns aid).transformations = [] :=
  ⟨rfl, rfl, rfl, rfl⟩

/-- Claim C10: parsing panics on a URL without a host component (the source begins
with `url.host_str().unwrap()`), and is panic-free exactly when a host is
present. -/
theorem tryFromUrl_panics_iff_hostless :
    (Image.tryFromUrl ⟨none, "demo/image/upload/pic.jpg".data⟩).isPanic = true
      ∧ (∀ (u : Url) (h : Str), u.host = some h →
          (Image.tryFromUrl u).isPanic = false) := by
  constructor
  · rfl
  · intro u h hh
    have htry : Image.tryFromUrl u
        = (if h ≠ "res.cloudinary.com".data
            then ParseOutcome.error "Not a cloudinary url".data
            else parseAfterHost u.path) := by
      rw [Image.tryFromUrl, hh]
    rw [htry]
    by_cases hne : h = "res.cloudinary.com".data
    · rw [if_neg (fun hc => hc hne)]
      exact parseAfterHost_no_panic _
    · rw [if_pos hne]; rfl

/-- Witness for C10's universal part: any URL with a host, even a wrong one,
does not panic. -/
theorem tryFromUrl_panics_iff_hostless_witness :
    (⟨some "other.host".data, "p".data⟩ : Url).host = some "other.host".data
      ∧ (Image.tryFromUrl ⟨some "other.host".data, "p".data⟩).isPanic = false :=
  ⟨rfl,
    tryFromUrl_panics_iff_hostless.2
      ⟨some "other.host".data, "p".data⟩ "other.host".data rfl⟩

end Cloudinary
